import Mathlib

/-!
Shallow embedding of the tool-augmented chat orchestration core of
`mcp_chatgpt_client.py` (class `MCPChatGPTClient`: `execute_mcp_tool`,
`chat_with_gpt`, `async_worker`, `send_message_sync`) and of `run_command`
from `wifi_diagnostics_mcp.py`.

External effects (the OpenAI completion calls, the MCP provider pipeline and
the subprocess runner) are modelled as oracles supplied to each embedded
function: the oracle value is the outcome the external world returns to that
particular call site.  Everything else — control flow, transcript mutation,
the outbound event stream and all string formatting — is translated directly
from the Python source.
-/

namespace McpClient

/-- One content part of a `call_tool` result: either a part carrying a
`text` attribute, or any other part, carried as its `str()` rendering
(`mcp_chatgpt_client.py` lines 129-133). -/
inductive ContentPart where
  | text (s : String)
  | other (s : String)
  deriving DecidableEq

/-- The string a content part contributes to the joined result:
`content.text` for textual parts, `str(content)` otherwise. -/
def ContentPart.render : ContentPart → String
  | .text s => s
  | .other s => s

/-- Outcome of the awaited provider pipeline inside `execute_mcp_tool`
(opening the stdio transport, `session.initialize()` and
`session.call_tool` all sit inside one `try`): `ok parts` is a normal
`call_tool` result with its content list, `exn msg` means some step raised
an exception with `str(e) = msg`, and `hang` means the awaited pipeline
never completes. -/
inductive CallOutcome where
  | ok (parts : List ContentPart)
  | exn (msg : String)
  | hang
  deriving DecidableEq

/-- Observable result of one `execute_mcp_tool` invocation:
`sessionOpened` records whether a fresh provider session was opened (the
ephemeral `stdio_client`/`ClientSession` context managers), and `result` is
the returned string, `none` when the provider pipeline never completes —
the method itself applies no timeout. -/
structure ToolCallResult where
  sessionOpened : Bool
  result : Option String
  deriving DecidableEq

/-- Embedding of `MCPChatGPTClient.execute_mcp_tool` (lines 114-139).
The method has access to the catalog snapshot `self.mcp_tools` but never
consults it: a fresh provider session is opened on every invocation,
whatever the name.  On a normal result, an empty (falsy) content list
yields the fixed sentinel, otherwise the rendered parts are joined with
newlines in provider order.  Any exception is converted into an error
string naming the tool. -/
def execute_mcp_tool (catalog : List String) (tool_name : String)
    (outcome : CallOutcome) : ToolCallResult :=
  { sessionOpened := true
    result :=
      match outcome with
      | .ok parts =>
          if parts.isEmpty then some "Tool executed successfully (no output)"
          else some (String.intercalate "\n" (parts.map ContentPart.render))
      | .exn msg => some ("Error executing tool " ++ tool_name ++ ": " ++ msg)
      | .hang => none }

/-- Opaque stand-in for a parsed arguments dict; `repr` is the text the
f-string at line 171 renders for it. -/
structure Args where
  repr : String
  deriving DecidableEq

/-- Result of `json.loads(tool_call.function.arguments)` (line 168):
`ok a` when parsing succeeds with value `a`, `err msg` with `str(e) = msg`
when it raises. -/
inductive ParsedArgs where
  | ok (a : Args)
  | err (msg : String)
  deriving DecidableEq

def ParsedArgs.isErr : ParsedArgs → Bool
  | .ok _ => false
  | .err _ => true

/-- One tool call of a completion response: `id`, `function.name` and the
parse outcome of its `function.arguments`. -/
structure ToolCall where
  id : String
  name : String
  arguments : ParsedArgs
  deriving DecidableEq

/-- Result of one `chat.completions.create` call: `ok content tool_calls`
is `response.choices[0].message` (a `None` tool-call list is modelled as
the empty list, which the code treats identically — both are falsy);
`exn msg` means the call raised with `str(e) = msg`. -/
inductive BackendResult where
  | ok (content : Option String) (tool_calls : List ToolCall)
  | exn (msg : String)
  deriving DecidableEq

def BackendResult.isExn : BackendResult → Bool
  | .ok _ _ => false
  | .exn _ => true

/-- Transcript entry (an element of `self.chat_history`). -/
inductive Entry where
  | user (content : String)
  | assistantToolCalls (content : Option String) (tool_calls : List ToolCall)
  | toolEntry (tool_call_id : String) (content : String)
  | assistant (content : Option String)
  deriving DecidableEq

/-- The content of a user entry, `none` for every other role. -/
def Entry.userContent : Entry → Option String
  | .user c => some c
  | _ => none

def Entry.isToolEntry : Entry → Bool
  | .toolEntry _ _ => true
  | _ => false

/-- The user-entry contents of a transcript, in order. -/
def userContents (hist : List Entry) : List String :=
  hist.filterMap Entry.userContent

/-- Kind tag of an item put on `self.response_queue`; the worker only ever
puts `tool`, `assistant` and `error` items. -/
inductive EKind where
  | tool
  | assistant
  | error
  deriving DecidableEq

/-- One outbound event, as put on `self.response_queue`: `(kind, text)`.
The text is `Option String` because an assistant message content can be
`None`. -/
structure OutEvent where
  kind : EKind
  text : Option String
  deriving DecidableEq

def OutEvent.isError (e : OutEvent) : Bool :=
  match e.kind with
  | .error => true
  | _ => false

/-- Number of error-kind events in an outbound stream. -/
def errorCount (evs : List OutEvent) : Nat :=
  evs.countP OutEvent.isError

/-- Environment of one exchange: the first completion call's result, the
provider outcome served to the i-th tool sub-call of this exchange, and
the follow-up completion call's result.  The code passes no `tools`
argument on the follow-up call and reads only `.content` of its message,
so its tool-call list is never consulted. -/
structure Exchange where
  first : BackendResult
  tools : Nat → CallOutcome
  followUp : BackendResult

/-- No tool sub-call of this exchange hangs forever. -/
def Exchange.noHang (env : Exchange) : Prop :=
  ∀ i, env.tools i ≠ CallOutcome.hang

/-- Whether the `try` block of `chat_with_gpt` raises (so that control
reaches the `except` at line 199): the first completion call raises, some
tool call's `json.loads` raises, or — when there are tool calls and all of
them parse — the follow-up completion call raises.  Exceptions inside
`execute_mcp_tool` never escape it. -/
def Exchange.hasExn (env : Exchange) : Bool :=
  match env.first with
  | .exn _ => true
  | .ok _ calls =>
      if calls.isEmpty then false
      else calls.any (fun tc => tc.arguments.isErr) || env.followUp.isExn

/-- Result of the `for tool_call in message_obj.tool_calls` loop:
`done entries evs` when every call was resolved (the appended tool entries
and the emitted events, in order), `aborted entries evs msg` when some
call's `json.loads` raised `msg` after `entries`/`evs` had already been
produced, `hung` when some provider pipeline never completed. -/
inductive ToolLoopResult where
  | done (entries : List Entry) (evs : List OutEvent)
  | aborted (entries : List Entry) (evs : List OutEvent) (errMsg : String)
  | hung

/-- Embedding of the tool-call loop (lines 166-181): for each call, parse
the arguments (a raise aborts the loop and escapes to the `except`), emit
a tool-invocation event, await `execute_mcp_tool`, append a tool entry
carrying the returned text and the call's id.  `i` indexes the oracle. -/
def runToolCalls (catalog : List String) (oracle : Nat → CallOutcome) :
    Nat → List ToolCall → ToolLoopResult
  | _, [] => .done [] []
  | i, tc :: rest =>
    match tc.arguments with
    | .err e => .aborted [] [] e
    | .ok a =>
      let ev : OutEvent :=
        { kind := .tool
          text := some ("🔧 Calling tool: " ++ tc.name ++ " with " ++ a.repr) }
      match (execute_mcp_tool catalog tc.name (oracle i)).result with
      | none => .hung
      | some s =>
        match runToolCalls catalog oracle (i + 1) rest with
        | .done es evs => .done (Entry.toolEntry tc.id s :: es) (ev :: evs)
        | .aborted es evs m => .aborted (Entry.toolEntry tc.id s :: es) (ev :: evs) m
        | .hung => .hung

/-- Embedding of `MCPChatGPTClient.chat_with_gpt` (lines 141-204): one
exchange.  Returns `none` when a tool sub-call hangs (the coroutine never
completes); otherwise `some (new chat history, outbound events emitted by
this exchange, in order)`.  The user entry is appended before the first
completion call, so it survives every failure path. -/
def chat_with_gpt (catalog : List String) (env : Exchange)
    (history : List Entry) (message : String) :
    Option (List Entry × List OutEvent) :=
  let hist1 := history ++ [Entry.user message]
  match env.first with
  | .exn msg =>
      some (hist1,
        [{ kind := .error
           text := some ("Error communicating with ChatGPT: " ++ msg) }])
  | .ok content calls =>
    if calls.isEmpty then
      some (hist1 ++ [Entry.assistant content],
        [{ kind := .assistant, text := content }])
    else
      let hist2 := hist1 ++ [Entry.assistantToolCalls content calls]
      match runToolCalls catalog env.tools 0 calls with
      | .hung => none
      | .aborted es evs m =>
          some (hist2 ++ es,
            evs ++ [{ kind := .error
                      text := some ("Error communicating with ChatGPT: " ++ m) }])
      | .done es evs =>
        match env.followUp with
        | .exn m =>
            some (hist2 ++ es,
              evs ++ [{ kind := .error
                        text := some ("Error communicating with ChatGPT: " ++ m) }])
        | .ok fc _ =>
            some (hist2 ++ es ++ [Entry.assistant fc],
              evs ++ [{ kind := .assistant, text := fc }])

/-- Terminal observation of `async_worker` run over a finite inbound
queue: `idle` when the queue has been drained and the loop keeps polling,
`quit hist evs remaining` when a `"QUIT"` sentinel broke the loop with
`remaining` still unread behind it, `hung` when an exchange never
completed. -/
inductive WorkerOutcome where
  | idle (hist : List Entry) (evs : List OutEvent)
  | quit (hist : List Entry) (evs : List OutEvent) (remaining : List String)
  | hung
  deriving DecidableEq

/-- Embedding of `MCPChatGPTClient.async_worker` (lines 206-228) over a
finite inbound queue, threading the transcript and the outbound event
stream.  Each iteration polls the queue front: a message equal to
`"QUIT"` breaks the loop immediately — before any exchange and without
touching transcript or events; any other message is processed as one full
exchange (awaited to completion) before the next poll.  `envs i` is the
environment of the i-th exchange performed from this point on. -/
def async_worker (catalog : List String) (envs : Nat → Exchange)
    (hist : List Entry) (evs : List OutEvent) :
    List String → WorkerOutcome
  | [] => .idle hist evs
  | m :: rest =>
    if m = "QUIT" then .quit hist evs rest
    else
      match chat_with_gpt catalog (envs 0) hist m with
      | none => .hung
      | some (h, e) =>
          async_worker catalog (fun n => envs (n + 1)) h (evs ++ e) rest

/-- Model of Python `str.strip()`: drop whitespace characters from both
ends of the string. -/
def strip (s : String) : String :=
  String.mk
    (((s.data.dropWhile Char.isWhitespace).reverse.dropWhile
      Char.isWhitespace).reverse)

/-- Embedding of `MCPChatGPTClient.send_message_sync` (lines 260-275):
strip the input; an empty result is dropped; when the backend client is
absent the message is rejected (an error is displayed, nothing enqueued);
otherwise the stripped text — whatever it is, `"QUIT"` included — is
enqueued on the inbound channel unchanged. -/
def send_message_sync (connected : Bool) (queue : List String)
    (input : String) : List String :=
  let message := strip input
  if message = "" then queue
  else if connected then queue ++ [message]
  else queue

/-! Structural lemmas about the embedded operations. -/

theorem execute_result_isSome (catalog : List String) (name : String)
    (oc : CallOutcome) (h : oc ≠ CallOutcome.hang) :
    ∃ s, (execute_mcp_tool catalog name oc).result = some s := by
  cases oc with
  | ok parts =>
      by_cases hp : parts.isEmpty <;> simp [execute_mcp_tool, hp]
  | exn m => simp [execute_mcp_tool]
  | hang => exact absurd rfl h

/-- Entries produced by the tool-call loop contain no user entries, and
every event it emits has kind `tool`. -/
theorem runToolCalls_shape (catalog : List String) (oracle : Nat → CallOutcome) :
    ∀ (calls : List ToolCall) (i : Nat),
      (∀ es evs, runToolCalls catalog oracle i calls = .done es evs →
        userContents es = [] ∧ ∀ ev ∈ evs, ev.kind = EKind.tool) ∧
      (∀ es evs m, runToolCalls catalog oracle i calls = .aborted es evs m →
        userContents es = [] ∧ ∀ ev ∈ evs, ev.kind = EKind.tool) := by
  intro calls
  induction calls with
  | nil =>
      intro i
      constructor
      · intro es evs h
        simp only [runToolCalls] at h
        cases h
        simp [userContents]
      · intro es evs m h
        simp only [runToolCalls] at h
        cases h
  | cons tc rest ih =>
      intro i
      constructor
      · intro es evs h
        simp only [runToolCalls] at h
        cases ha : tc.arguments with
        | err e => rw [ha] at h; cases h
        | ok a =>
          rw [ha] at h
          cases hr : (execute_mcp_tool catalog tc.name (oracle i)).result with
          | none => rw [hr] at h; cases h
          | some s =>
            rw [hr] at h
            cases hrec : runToolCalls catalog oracle (i + 1) rest with
            | done es' evs' =>
                rw [hrec] at h
                cases h
                have := (ih (i + 1)).1 es' evs' hrec
                refine ⟨?_, ?_⟩
                · simp [userContents, Entry.userContent] at this ⊢
                  exact this.1
                · intro ev hev
                  rcases List.mem_cons.mp hev with h1 | h2
                  · subst h1; rfl
                  · exact this.2 ev h2
            | aborted es' evs' m' => rw [hrec] at h; cases h
            | hung => rw [hrec] at h; cases h
      · intro es evs m h
        simp only [runToolCalls] at h
        cases ha : tc.arguments with
        | err e =>
            rw [ha] at h
            cases h
            exact ⟨by simp [userContents], by intro ev hev; cases hev⟩
        | ok a =>
          rw [ha] at h
          cases hr : (execute_mcp_tool catalog tc.name (oracle i)).result with
          | none => rw [hr] at h; cases h
          | some s =>
            rw [hr] at h
            cases hrec : runToolCalls catalog oracle (i + 1) rest with
            | done es' evs' => rw [hrec] at h; cases h
            | aborted es' evs' m' =>
                rw [hrec] at h
                cases h
                have := (ih (i + 1)).2 _ _ _ hrec
                refine ⟨?_, ?_⟩
                · simp [userContents, Entry.userContent] at this ⊢
                  exact this.1
                · intro ev hev
                  rcases List.mem_cons.mp hev with h1 | h2
                  · subst h1; rfl
                  · exact this.2 ev h2
            | hung => rw [hrec] at h; cases h

/-- When no provider pipeline hangs, the tool-call loop does not hang. -/
theorem runToolCalls_ne_hung (catalog : List String) (oracle : Nat → CallOutcome)
    (hnh : ∀ j, oracle j ≠ CallOutcome.hang) :
    ∀ (calls : List ToolCall) (i : Nat),
      runToolCalls catalog oracle i calls ≠ ToolLoopResult.hung := by
  intro calls
  induction calls with
  | nil => intro i h; simp only [runToolCalls] at h; cases h
  | cons tc rest ih =>
      intro i h
      simp only [runToolCalls] at h
      cases ha : tc.arguments with
      | err e => rw [ha] at h; cases h
      | ok a =>
        rw [ha] at h
        obtain ⟨s, hs⟩ := execute_result_isSome catalog tc.name (oracle i) (hnh i)
        rw [hs] at h
        cases hrec : runToolCalls catalog oracle (i + 1) rest with
        | done es' evs' => rw [hrec] at h; cases h
        | aborted es' evs' m' => rw [hrec] at h; cases h
        | hung => exact ih (i + 1) hrec

/-- If every tool call's arguments parse and no provider call hangs, the
loop resolves every call: it is `done` with exactly one tool entry per
call, in order, each carrying that call's id. -/
theorem runToolCalls_done_of_ok (catalog : List String)
    (oracle : Nat → CallOutcome) (hnh : ∀ j, oracle j ≠ CallOutcome.hang) :
    ∀ (calls : List ToolCall) (i : Nat),
      (∀ tc ∈ calls, tc.arguments.isErr = false) →
      ∃ cs evs, cs.length = calls.length ∧
        runToolCalls catalog oracle i calls =
          .done ((calls.zip cs).map fun p => Entry.toolEntry p.1.id p.2) evs := by
  intro calls
  induction calls with
  | nil => intro i _; exact ⟨[], [], rfl, rfl⟩
  | cons tc rest ih =>
      intro i hok
      have htc := hok tc (List.mem_cons_self tc rest)
      cases ha : tc.arguments with
      | err e => rw [ha] at htc; simp [ParsedArgs.isErr] at htc
      | ok a =>
        obtain ⟨s, hs⟩ := execute_result_isSome catalog tc.name (oracle i) (hnh i)
        obtain ⟨cs, evs, hlen, hrec⟩ :=
          ih (i + 1) (fun x hx => hok x (List.mem_cons_of_mem tc hx))
        refine ⟨s :: cs,
          { kind := EKind.tool
            text := some ("🔧 Calling tool: " ++ tc.name ++ " with " ++ a.repr) } :: evs,
          by simp [hlen], ?_⟩
        simp only [runToolCalls, ha, hs, hrec, List.zip_cons_cons, List.map_cons]

/-- An aborted loop means some call's arguments failed to parse. -/
theorem runToolCalls_aborted_hasErr (catalog : List String)
    (oracle : Nat → CallOutcome) :
    ∀ (calls : List ToolCall) (i : Nat) (es : List Entry)
      (evs : List OutEvent) (m : String),
      runToolCalls catalog oracle i calls = .aborted es evs m →
      calls.any (fun tc => tc.arguments.isErr) = true := by
  intro calls
  induction calls with
  | nil => intro i es evs m h; simp only [runToolCalls] at h; cases h
  | cons tc rest ih =>
      intro i es evs m h
      simp only [runToolCalls] at h
      cases ha : tc.arguments with
      | err e => simp [List.any_cons, ParsedArgs.isErr, ha]
      | ok a =>
        rw [ha] at h
        cases hr : (execute_mcp_tool catalog tc.name (oracle i)).result with
        | none => rw [hr] at h; cases h
        | some s =>
          rw [hr] at h
          cases hrec : runToolCalls catalog oracle (i + 1) rest with
          | done es' evs' => rw [hrec] at h; cases h
          | aborted es' evs' m' =>
              rw [hrec] at h
              cases h
              have := ih (i + 1) _ _ _ hrec
              simp [List.any_cons, this]
          | hung => rw [hrec] at h; cases h

/-- A completed loop means every call's arguments parsed. -/
theorem runToolCalls_done_allOk (catalog : List String)
    (oracle : Nat → CallOutcome) :
    ∀ (calls : List ToolCall) (i : Nat) (es : List Entry)
      (evs : List OutEvent),
      runToolCalls catalog oracle i calls = .done es evs →
      calls.any (fun tc => tc.arguments.isErr) = false := by
  intro calls
  induction calls with
  | nil => intro i es evs _; simp
  | cons tc rest ih =>
      intro i es evs h
      simp only [runToolCalls] at h
      cases ha : tc.arguments with
      | err e => rw [ha] at h; cases h
      | ok a =>
        rw [ha] at h
        cases hr : (execute_mcp_tool catalog tc.name (oracle i)).result with
        | none => rw [hr] at h; cases h
        | some s =>
          rw [hr] at h
          cases hrec : runToolCalls catalog oracle (i + 1) rest with
          | done es' evs' =>
              rw [hrec] at h
              cases h
              have := ih (i + 1) _ _ hrec
              simp only [List.any_cons, ha, ParsedArgs.isErr, Bool.false_or]
              exact this
          | aborted es' evs' m' => rw [hrec] at h; cases h
          | hung => rw [hrec] at h; cases h

/-- A stream whose events all have kind `tool` contains no error event. -/
theorem errorCount_eq_zero_of_tool (evs : List OutEvent)
    (h : ∀ ev ∈ evs, ev.kind = EKind.tool) : errorCount evs = 0 := by
  unfold errorCount
  rw [List.countP_eq_zero]
  intro ev hev
  have := h ev hev
  simp [OutEvent.isError, this]

theorem userContents_nil : userContents [] = [] := rfl

theorem userContents_append (a b : List Entry) :
    userContents (a ++ b) = userContents a ++ userContents b :=
  List.filterMap_append a b Entry.userContent

theorem userContents_cons_user (c : String) (t : List Entry) :
    userContents (Entry.user c :: t) = c :: userContents t := rfl

theorem userContents_cons_atc (c : Option String) (cs : List ToolCall)
    (t : List Entry) :
    userContents (Entry.assistantToolCalls c cs :: t) = userContents t := rfl

theorem userContents_cons_toolEntry (i c : String) (t : List Entry) :
    userContents (Entry.toolEntry i c :: t) = userContents t := rfl

theorem userContents_cons_assistant (c : Option String) (t : List Entry) :
    userContents (Entry.assistant c :: t) = userContents t := rfl

theorem errorCount_append (a b : List OutEvent) :
    errorCount (a ++ b) = errorCount a + errorCount b := by
  simp [errorCount, List.countP_append]

/-- When no tool sub-call hangs, `chat_with_gpt` completes; its outbound
stream carries exactly one error event when (and only when) the `try`
block raised, that error event carries the human-readable message built at
line 200, and the new transcript extends the old one with the user entry
first. -/
theorem chat_with_gpt_spec (catalog : List String) (env : Exchange)
    (hist : List Entry) (msg : String) (hnh : env.noHang) :
    ∃ h e, chat_with_gpt catalog env hist msg = some (h, e) ∧
      errorCount e = (if env.hasExn then 1 else 0) ∧
      (∀ ev ∈ e, ev.kind = EKind.error →
        ∃ s, ev.text = some ("Error communicating with ChatGPT: " ++ s)) ∧
      userContents h = userContents hist ++ [msg] := by
  cases hf : env.first with
  | exn m =>
      refine ⟨_, _, by simp only [chat_with_gpt, hf]; rfl, ?_, ?_, ?_⟩
      · simp [errorCount, Exchange.hasExn, hf, OutEvent.isError]
      · intro ev hev _
        rcases List.mem_singleton.mp hev with rfl
        exact ⟨m, rfl⟩
      · simp [userContents_append, userContents_cons_user, userContents_nil]
  | ok content calls =>
    by_cases hc : calls.isEmpty
    · refine ⟨_, _, by simp only [chat_with_gpt, hf, if_pos hc]; rfl, ?_, ?_, ?_⟩
      · simp [errorCount, Exchange.hasExn, hf, hc, OutEvent.isError]
      · intro ev hev hk
        rcases List.mem_singleton.mp hev with rfl
        cases hk
      · simp [userContents_append, userContents_cons_user,
          userContents_cons_assistant, userContents_nil]
    · cases hrtc : runToolCalls catalog env.tools 0 calls with
      | hung => exact absurd hrtc (runToolCalls_ne_hung catalog env.tools hnh calls 0)
      | aborted es evs m =>
          have hshape := (runToolCalls_shape catalog env.tools calls 0).2 _ _ _ hrtc
          have herr := runToolCalls_aborted_hasErr catalog env.tools calls 0 _ _ _ hrtc
          have h0 := errorCount_eq_zero_of_tool evs hshape.2
          refine ⟨_, _, by simp only [chat_with_gpt, hf, if_neg hc, hrtc]; rfl, ?_, ?_, ?_⟩
          · rw [errorCount_append, h0]
            simp [Exchange.hasExn, hf, hc, herr, errorCount, OutEvent.isError,
              List.countP_cons, List.countP_nil]
          · intro ev hev hk
            rcases List.mem_append.mp hev with h1 | h2
            · have := hshape.2 ev h1
              rw [this] at hk
              cases hk
            · rcases List.mem_singleton.mp h2 with rfl
              exact ⟨m, rfl⟩
          · simp only [List.append_assoc, List.cons_append, List.nil_append,
              userContents_append, userContents_cons_user, userContents_cons_atc,
              userContents_nil, hshape.1]
      | done es evs =>
          have hshape := (runToolCalls_shape catalog env.tools calls 0).1 _ _ hrtc
          have hok := runToolCalls_done_allOk catalog env.tools calls 0 _ _ hrtc
          have h0 := errorCount_eq_zero_of_tool evs hshape.2
          cases hfu : env.followUp with
          | exn m =>
              refine ⟨_, _, by simp only [chat_with_gpt, hf, if_neg hc, hrtc, hfu]; rfl,
                ?_, ?_, ?_⟩
              · rw [errorCount_append, h0]
                simp [Exchange.hasExn, hf, hc, hok, BackendResult.isExn, hfu,
                  errorCount, OutEvent.isError, List.countP_cons, List.countP_nil]
              · intro ev hev hk
                rcases List.mem_append.mp hev with h1 | h2
                · have := hshape.2 ev h1
                  rw [this] at hk
                  cases hk
                · rcases List.mem_singleton.mp h2 with rfl
                  exact ⟨m, rfl⟩
              · simp only [List.append_assoc, List.cons_append, List.nil_append,
                  userContents_append, userContents_cons_user, userContents_cons_atc,
                  userContents_nil, hshape.1]
          | ok fc fcalls =>
              refine ⟨_, _, by simp only [chat_with_gpt, hf, if_neg hc, hrtc, hfu]; rfl,
                ?_, ?_, ?_⟩
              · rw [errorCount_append, h0]
                simp [Exchange.hasExn, hf, hc, hok, BackendResult.isExn, hfu,
                  errorCount, OutEvent.isError, List.countP_cons, List.countP_nil]
              · intro ev hev hk
                rcases List.mem_append.mp hev with h1 | h2
                · have := hshape.2 ev h1
                  rw [this] at hk
                  cases hk
                · rcases List.mem_singleton.mp h2 with rfl
                  cases hk
              · simp only [List.append_assoc, List.cons_append, List.nil_append,
                  userContents_append, userContents_cons_user, userContents_cons_atc,
                  userContents_cons_assistant, userContents_nil, hshape.1]

/-- Whenever an exchange completes, the worker loop steps over it and goes
on to poll for the next message: processing `m :: rest` is processing
`rest` from the post-exchange state. -/
theorem async_worker_step (catalog : List String) (envs : Nat → Exchange)
    (hist : List Entry) (evs : List OutEvent) (m : String)
    (rest : List String) (h : List Entry) (e : List OutEvent)
    (hq : m ≠ "QUIT")
    (hc : chat_with_gpt catalog (envs 0) hist m = some (h, e)) :
    async_worker catalog envs hist evs (m :: rest) =
      async_worker catalog (fun n => envs (n + 1)) h (evs ++ e) rest := by
  simp only [async_worker, if_neg hq, hc]

/-- A queue free of the sentinel, processed under environments without
hangs, is drained completely: every exchange runs to completion, and the
final transcript extends the initial one by exactly one user entry per
message, in arrival order. -/
theorem async_worker_drains (catalog : List String) :
    ∀ (msgs : List String) (envs : Nat → Exchange) (hist : List Entry)
      (evs : List OutEvent),
      (∀ m ∈ msgs, m ≠ "QUIT") → (∀ i, (envs i).noHang) →
      ∃ h e, async_worker catalog envs hist evs msgs = WorkerOutcome.idle h e ∧
        userContents h = userContents hist ++ msgs := by
  intro msgs
  induction msgs with
  | nil => intro envs hist evs _ _; exact ⟨hist, evs, rfl, by simp⟩
  | cons m rest ih =>
      intro envs hist evs hq hnh
      obtain ⟨h1, e1, hc, _, _, hu⟩ := chat_with_gpt_spec catalog (envs 0) hist m (hnh 0)
      obtain ⟨h, e, hrun, hu2⟩ := ih (fun n => envs (n + 1)) h1 (evs ++ e1)
        (fun x hx => hq x (List.mem_cons_of_mem m hx)) (fun i => hnh (i + 1))
      refine ⟨h, e, ?_, ?_⟩
      · rw [async_worker_step catalog envs hist evs m rest h1 e1
          (hq m (List.mem_cons_self m rest)) hc]
        exact hrun
      · rw [hu2, hu]
        simp

/-- A sentinel sitting behind sentinel-free messages is honored exactly
when the loop reaches it: after every earlier exchange has completed, the
loop breaks with the accumulated state and leaves everything behind the
sentinel unread. -/
theorem async_worker_quit_after (catalog : List String) :
    ∀ (msgs : List String) (envs : Nat → Exchange) (hist : List Entry)
      (evs : List OutEvent) (rest : List String) (h : List Entry)
      (e : List OutEvent),
      (∀ m ∈ msgs, m ≠ "QUIT") →
      async_worker catalog envs hist evs msgs = WorkerOutcome.idle h e →
      async_worker catalog envs hist evs (msgs ++ "QUIT" :: rest) =
        WorkerOutcome.quit h e rest := by
  intro msgs
  induction msgs with
  | nil =>
      intro envs hist evs rest h e _ hrun
      simp only [async_worker] at hrun
      cases hrun
      simp [async_worker]
  | cons m ms ih =>
      intro envs hist evs rest h e hq hrun
      have hm := hq m (List.mem_cons_self m ms)
      cases hcg : chat_with_gpt catalog (envs 0) hist m with
      | none =>
          have hbad : async_worker catalog envs hist evs (m :: ms) =
              WorkerOutcome.hung := by
            simp only [async_worker, if_neg hm, hcg]
          rw [hbad] at hrun
          cases hrun
      | some p =>
          obtain ⟨h1, e1⟩ := p
          rw [async_worker_step catalog envs hist evs m ms h1 e1 hm hcg] at hrun
          rw [List.cons_append,
            async_worker_step catalog envs hist evs m (ms ++ "QUIT" :: rest) h1 e1 hm hcg]
          exact ih _ _ _ rest h e (fun x hx => hq x (List.mem_cons_of_mem m hx)) hrun

/-! Concrete inputs used by counterexamples and witnesses. -/

/-- An exchange whose single tool call's provider pipeline raises a
connection error, while both completion calls succeed. -/
def c1envx : Exchange :=
  { first := BackendResult.ok none
      [{ id := "call_a", name := "check_wifi_status",
         arguments := ParsedArgs.ok { repr := "\x7b\x7d" } }]
    tools := fun _ => CallOutcome.exn "Connection refused"
    followUp := BackendResult.ok (some "The tool could not be reached.") [] }

/-- An exchange that raises nothing and performs no tool calls. -/
def plainEnv : Exchange :=
  { first := BackendResult.ok (some "4") []
    tools := fun _ => CallOutcome.ok []
    followUp := BackendResult.ok none [] }

/-- An exchange whose first completion call raises. -/
def c1wenv : Exchange :=
  { first := BackendResult.exn "API connection failed"
    tools := fun _ => CallOutcome.ok []
    followUp := BackendResult.ok none [] }

theorem c1wenv_noHang : c1wenv.noHang := fun _ h => nomatch h

theorem plainEnv_noHang : plainEnv.noHang := fun _ h => nomatch h

/-- Claim C1 counterexample: in the exchange `c1envx` the tool invocation
raises (`tools 0` is an exception), yet the completed exchange emits no
outbound event of kind error — the exception is absorbed at the call
boundary and never reaches the exchange boundary, contradicting the claim
that any exception raised during the exchange, a tool invocation's
included, is converted into one outbound error event. -/
theorem c1_counterexample :
    c1envx.tools 0 = CallOutcome.exn "Connection refused" ∧
    (chat_with_gpt [] c1envx [] "check my wifi").isSome = true ∧
    errorCount (((chat_with_gpt [] c1envx [] "check my wifi").getD ([], [])).2) = 0 :=
  ⟨rfl, rfl, rfl⟩

/-- Claim C1 (amended): any exception that reaches the exchange boundary —
raised by either completion call or by argument parsing; exceptions inside
a tool invocation are absorbed at the call boundary and become the tool
entry's text instead — is caught there and converted into exactly one
outbound error event carrying a human-readable message, and the worker
loop then proceeds to poll for the next message: no exchange failure
terminates the loop. -/
theorem c1_exchange_failure_containment (catalog : List String)
    (envs : Nat → Exchange) (hist : List Entry) (evs : List OutEvent)
    (m : String) (rest : List String)
    (hq : m ≠ "QUIT") (hnh : (envs 0).noHang) :
    ∃ h e, chat_with_gpt catalog (envs 0) hist m = some (h, e) ∧
      errorCount e = (if (envs 0).hasExn then 1 else 0) ∧
      (∀ ev ∈ e, ev.kind = EKind.error →
        ∃ s, ev.text = some ("Error communicating with ChatGPT: " ++ s)) ∧
      async_worker catalog envs hist evs (m :: rest) =
        async_worker catalog (fun n => envs (n + 1)) h (evs ++ e) rest := by
  obtain ⟨h, e, hc, hcount, htext, _⟩ := chat_with_gpt_spec catalog (envs 0) hist m hnh
  exact ⟨h, e, hc, hcount, htext,
    async_worker_step catalog envs hist evs m rest h e hq hc⟩

/-- Claim C1 witness: the theorem applied to a failing first completion
call. -/
theorem c1_witness :
    ("hello" ≠ "QUIT") ∧ ((fun _ : Nat => c1wenv) 0).noHang ∧
    (∃ h e, chat_with_gpt [] ((fun _ : Nat => c1wenv) 0) [] "hello" = some (h, e) ∧
      errorCount e = (if ((fun _ : Nat => c1wenv) 0).hasExn then 1 else 0) ∧
      (∀ ev ∈ e, ev.kind = EKind.error →
        ∃ s, ev.text = some ("Error communicating with ChatGPT: " ++ s)) ∧
      async_worker [] (fun _ : Nat => c1wenv) [] [] ("hello" :: []) =
        async_worker [] (fun n => (fun _ : Nat => c1wenv) (n + 1)) h ([] ++ e) []) :=
  ⟨by decide, c1wenv_noHang,
    c1_exchange_failure_containment [] (fun _ => c1wenv) [] [] "hello" []
      (by decide) c1wenv_noHang⟩

/-- A tool call whose arguments do not parse as JSON. -/
def c2badcall : ToolCall :=
  { id := "call_1", name := "get_status",
    arguments := ParsedArgs.err "Expecting value: line 1 column 1 (char 0)" }

/-- An exchange whose first response carries one tool call with
unparseable arguments. -/
def c2envx : Exchange :=
  { first := BackendResult.ok none [c2badcall]
    tools := fun _ => CallOutcome.ok []
    followUp := BackendResult.ok (some "done") [] }

/-- A tool call with well-formed empty-object arguments. -/
def c2wcall : ToolCall :=
  { id := "call_7", name := "check_wifi_status",
    arguments := ParsedArgs.ok { repr := "\x7b\x7d" } }

/-- An exchange with one well-formed tool call whose provider returns one
text part. -/
def c2wenv : Exchange :=
  { first := BackendResult.ok none [c2wcall]
    tools := fun _ => CallOutcome.ok [ContentPart.text "connected"]
    followUp := BackendResult.ok (some "Your WiFi is connected.") [] }

/-- Claim C2 counterexample: the first response of `c2envx` carries k = 1
tool call, but because its arguments fail to parse the exchange aborts at
the `json.loads` and zero tool entries are appended — so it is not true of
every exchange with k ≥ 1 tool calls that exactly k tool entries are
appended. -/
theorem c2_counterexample :
    c2envx.first = BackendResult.ok none [c2badcall] ∧
    (chat_with_gpt [] c2envx [] "run the tool").isSome = true ∧
    (((chat_with_gpt [] c2envx [] "run the tool").getD ([], [])).1.countP
      Entry.isToolEntry) = 0 :=
  ⟨rfl, rfl, rfl⟩

/-- Claim C2 (amended): for every exchange whose first completion response
carries k ≥ 1 tool calls, all of whose arguments parse and none of whose
provider pipelines hang, exactly k tool entries are appended, the i-th
carrying the id of the i-th tool call of that same response (so each tool
call is resolved sequentially, in the order received), and all of them sit
before the entry contributed by the single follow-up completion call,
which is issued with tools disabled (the embedding never consults the
follow-up response's tool calls). -/
theorem c2_tool_entries (catalog : List String) (env : Exchange)
    (hist : List Entry) (msg : String) (c : Option String)
    (calls : List ToolCall)
    (hf : env.first = BackendResult.ok c calls) (hne : calls ≠ [])
    (hok : ∀ tc ∈ calls, tc.arguments.isErr = false) (hnh : env.noHang) :
    ∃ cs evs, cs.length = calls.length ∧
      chat_with_gpt catalog env hist msg = some
        (hist ++ Entry.user msg :: Entry.assistantToolCalls c calls ::
          (((calls.zip cs).map fun p => Entry.toolEntry p.1.id p.2) ++
            (match env.followUp with
             | .ok fc _ => [Entry.assistant fc]
             | .exn _ => [])), evs) := by
  obtain ⟨cs, tevs, hlen, hrtc⟩ :=
    runToolCalls_done_of_ok catalog env.tools hnh calls 0 hok
  have hc : calls.isEmpty = false := by
    cases calls with
    | nil => exact absurd rfl hne
    | cons a l => rfl
  cases hfu : env.followUp with
  | exn m =>
      refine ⟨cs, tevs ++
        [{ kind := EKind.error,
           text := some ("Error communicating with ChatGPT: " ++ m) }], hlen, ?_⟩
      simp only [chat_with_gpt, hf, hc, Bool.false_eq_true, if_false, hrtc, hfu]
      simp
  | ok fc fcalls =>
      refine ⟨cs, tevs ++ [{ kind := EKind.assistant, text := fc }], hlen, ?_⟩
      simp only [chat_with_gpt, hf, hc, Bool.false_eq_true, if_false, hrtc, hfu]
      simp

theorem c2wenv_noHang : c2wenv.noHang := fun _ h => nomatch h

/-- Claim C2 witness: the amended theorem applied to one well-formed tool
call. -/
theorem c2_witness :
    (c2wenv.first = BackendResult.ok none [c2wcall]) ∧
    ([c2wcall] ≠ ([] : List ToolCall)) ∧
    (∀ tc ∈ [c2wcall], tc.arguments.isErr = false) ∧ c2wenv.noHang ∧
    (∃ cs evs, cs.length = [c2wcall].length ∧
      chat_with_gpt [] c2wenv [] "status" = some
        ([] ++ Entry.user "status" :: Entry.assistantToolCalls none [c2wcall] ::
          ((([c2wcall].zip cs).map fun p => Entry.toolEntry p.1.id p.2) ++
            (match c2wenv.followUp with
             | .ok fc _ => [Entry.assistant fc]
             | .exn _ => [])), evs)) :=
  ⟨rfl, by decide, by decide, c2wenv_noHang,
    c2_tool_entries [] c2wenv [] "status" none [c2wcall] rfl (by decide)
      (by decide) c2wenv_noHang⟩

/-- Worker environments for the C3 witness run. -/
def c3wenvs : Nat → Exchange := fun _ => plainEnv

/-- Transcript produced by the C3 witness run. -/
def c3whist : List Entry :=
  [Entry.user "what is 2+2", Entry.assistant (some "4"),
   Entry.user "thanks", Entry.assistant (some "4")]

/-- Events produced by the C3 witness run. -/
def c3wevs : List OutEvent :=
  [{ kind := EKind.assistant, text := some "4" },
   { kind := EKind.assistant, text := some "4" }]

theorem c3wenvs_noHang : ∀ i, (c3wenvs i).noHang := fun _ => plainEnv_noHang

/-- Claim C3: for every sequence of inbound messages, none equal to the
shutdown sentinel, that the worker drains, the resulting transcript's user
entries are exactly those messages, in arrival order (so exactly N user
entries for N messages). -/
theorem c3_user_entries (catalog : List String) (envs : Nat → Exchange)
    (msgs : List String) (h : List Entry) (e : List OutEvent)
    (hq : ∀ m ∈ msgs, m ≠ "QUIT") (hnh : ∀ i, (envs i).noHang)
    (hrun : async_worker catalog envs [] [] msgs = WorkerOutcome.idle h e) :
    userContents h = msgs := by
  obtain ⟨h', e', hrun', hu⟩ := async_worker_drains catalog msgs envs [] [] hq hnh
  rw [hrun] at hrun'
  cases hrun'
  simpa using hu

/-- Claim C3 witness: a two-message run. -/
theorem c3_witness :
    (∀ m ∈ ["what is 2+2", "thanks"], m ≠ "QUIT") ∧
    (∀ i, (c3wenvs i).noHang) ∧
    async_worker [] c3wenvs [] [] ["what is 2+2", "thanks"] =
      WorkerOutcome.idle c3whist c3wevs ∧
    userContents c3whist = ["what is 2+2", "thanks"] :=
  ⟨by decide, c3wenvs_noHang, rfl,
    c3_user_entries [] c3wenvs ["what is 2+2", "thanks"] c3whist c3wevs
      (by decide) c3wenvs_noHang rfl⟩

/-- A catalog snapshot holding the provider's diagnostic tools. -/
def c4catalog : List String :=
  ["check_wifi_status", "diagnose_connection_issues", "fix_common_issues"]

/-- Claim C4 counterexample: for a name absent from the catalog the broker
nevertheless opens a provider session (`sessionOpened = true`): the error
string it returns comes from the provider call raising, not from any
catalog check — contradicting the claim that the call returns immediately
without opening a provider session. -/
theorem c4_counterexample :
    ("no_such_tool" ∉ c4catalog) ∧
    (execute_mcp_tool c4catalog "no_such_tool"
      (CallOutcome.exn "Unknown tool: no_such_tool")).sessionOpened = true ∧
    (execute_mcp_tool c4catalog "no_such_tool"
      (CallOutcome.exn "Unknown tool: no_such_tool")).result =
      some "Error executing tool no_such_tool: Unknown tool: no_such_tool" :=
  ⟨by decide, rfl, rfl⟩

/-- Claim C4 (amended): invoking the broker with a name absent from the
catalog never raises and returns a string — but the broker never consults
the catalog: it opens an ephemeral provider session regardless and issues
the call; when the provider rejects the unknown name by raising, the
returned string is the error string naming the tool, and any provider
outcome short of a hang yields some returned string. -/
theorem c4_unknown_tool (catalog : List String) (name emsg : String)
    (oc : CallOutcome) (habs : name ∉ catalog)
    (hnh : oc ≠ CallOutcome.hang) :
    (execute_mcp_tool catalog name oc).sessionOpened = true ∧
    (execute_mcp_tool catalog name (CallOutcome.exn emsg)).result =
      some ("Error executing tool " ++ name ++ ": " ++ emsg) ∧
    ∃ s, (execute_mcp_tool catalog name oc).result = some s :=
  ⟨rfl, rfl, execute_result_isSome catalog name oc hnh⟩

/-- Claim C4 witness: the amended theorem at an unknown name. -/
theorem c4_witness :
    ("nope" ∉ c4catalog) ∧
    (CallOutcome.exn "Unknown tool: nope" ≠ CallOutcome.hang) ∧
    ((execute_mcp_tool c4catalog "nope"
        (CallOutcome.exn "Unknown tool: nope")).sessionOpened = true ∧
      (execute_mcp_tool c4catalog "nope"
        (CallOutcome.exn "Unknown tool: nope")).result =
        some ("Error executing tool " ++ "nope" ++ ": " ++ "Unknown tool: nope") ∧
      ∃ s, (execute_mcp_tool c4catalog "nope"
        (CallOutcome.exn "Unknown tool: nope")).result = some s) :=
  ⟨by decide, by decide,
    c4_unknown_tool c4catalog "nope" "Unknown tool: nope"
      (CallOutcome.exn "Unknown tool: nope") (by decide) (by decide)⟩

/-- Claim C5 counterexample: two textual parts come back joined with a
newline separator, not concatenated: for parts "part one" and "part two"
the broker returns "part one\npart two", which differs from their
concatenation "part onepart two". -/
theorem c5_counterexample :
    (execute_mcp_tool [] "get_status"
      (CallOutcome.ok [ContentPart.text "part one",
        ContentPart.text "part two"])).result =
      some "part one\npart two" ∧
    "part one\npart two" ≠ "part one" ++ "part two" :=
  ⟨rfl, by decide⟩

/-- Arguments rendering of an empty JSON object. -/
def toolArgsEmpty : Args := { repr := "\x7b\x7d" }

/-- A well-formed `get_status` tool call. -/
def c5wtc : ToolCall :=
  { id := "call_b", name := "get_status", arguments := ParsedArgs.ok toolArgsEmpty }

/-- An exchange whose single tool call's provider returns zero content
parts. -/
def c5wenv : Exchange :=
  { first := BackendResult.ok none [c5wtc]
    tools := fun _ => CallOutcome.ok []
    followUp := BackendResult.ok (some "No output came back.") [] }

/-- Claim C5 (amended): on success the broker returns the rendered parts
joined with newline separators, in provider order, non-textual parts
stringified; zero content parts yield the fixed sentinel
"Tool executed successfully (no output)"; and in an exchange whose single
tool call gets zero parts, that sentinel becomes the tool entry's content
and a final outbound assistant event is still produced after the
follow-up call. -/
theorem c5_result_formatting (catalog : List String) (name : String)
    (parts : List ContentPart) (env : Exchange) (hist : List Entry)
    (msg : String) (tc : ToolCall) (c fc : Option String) (a : Args)
    (fcalls : List ToolCall)
    (hf : env.first = BackendResult.ok c [tc])
    (ha : tc.arguments = ParsedArgs.ok a)
    (ht : env.tools 0 = CallOutcome.ok [])
    (hfu : env.followUp = BackendResult.ok fc fcalls) :
    (execute_mcp_tool catalog name (CallOutcome.ok parts)).result =
      some (if parts.isEmpty then "Tool executed successfully (no output)"
            else String.intercalate "\n" (parts.map ContentPart.render)) ∧
    chat_with_gpt catalog env hist msg = some
      (hist ++ [Entry.user msg, Entry.assistantToolCalls c [tc],
        Entry.toolEntry tc.id "Tool executed successfully (no output)",
        Entry.assistant fc],
       [{ kind := EKind.tool,
          text := some ("🔧 Calling tool: " ++ tc.name ++ " with " ++ a.repr) },
        { kind := EKind.assistant, text := fc }]) := by
  constructor
  · by_cases hp : parts.isEmpty <;> simp [execute_mcp_tool, hp]
  · simp [chat_with_gpt, hf, runToolCalls, ha, ht, hfu, execute_mcp_tool]

/-- Claim C5 witness: the amended theorem at a zero-part provider result,
with a nonempty mixed part list on the broker side. -/
theorem c5_witness :
    (c5wenv.first = BackendResult.ok none [c5wtc]) ∧
    (c5wtc.arguments = ParsedArgs.ok toolArgsEmpty) ∧
    (c5wenv.tools 0 = CallOutcome.ok []) ∧
    (c5wenv.followUp = BackendResult.ok (some "No output came back.") []) ∧
    ((execute_mcp_tool [] "get_status"
        (CallOutcome.ok [ContentPart.text "up", ContentPart.other "extra"])).result =
      some (if ([ContentPart.text "up", ContentPart.other "extra"] :
              List ContentPart).isEmpty
            then "Tool executed successfully (no output)"
            else String.intercalate "\n"
              ([ContentPart.text "up", ContentPart.other "extra"].map
                ContentPart.render)) ∧
     chat_with_gpt [] c5wenv [] "status" = some
       ([] ++ [Entry.user "status", Entry.assistantToolCalls none [c5wtc],
         Entry.toolEntry c5wtc.id "Tool executed successfully (no output)",
         Entry.assistant (some "No output came back.")],
        [{ kind := EKind.tool,
           text := some ("🔧 Calling tool: " ++ c5wtc.name ++ " with " ++
             toolArgsEmpty.repr) },
         { kind := EKind.assistant, text := some "No output came back." }])) :=
  ⟨rfl, rfl, rfl, rfl,
    c5_result_formatting [] "get_status"
      [ContentPart.text "up", ContentPart.other "extra"] c5wenv [] "status"
      c5wtc none (some "No output came back.") toolArgsEmpty [] rfl rfl rfl rfl⟩

/-- Claim C6 counterexample: the broker applies no wall-clock timeout of
its own: when the provider pipeline never completes, `execute_mcp_tool`
never returns (result `none`) — no timeout converts the overrun into an
error string. -/
theorem c6_counterexample :
    (execute_mcp_tool ["check_wifi_status"] "check_wifi_status"
      CallOutcome.hang).result = none :=
  rfl

/-- A well-formed `check_wifi_status` tool call. -/
def c6wtc : ToolCall :=
  { id := "call_c", name := "check_wifi_status",
    arguments := ParsedArgs.ok toolArgsEmpty }

/-- An exchange whose single tool call's provider raises a timeout
error. -/
def c6wenv : Exchange :=
  { first := BackendResult.ok none [c6wtc]
    tools := fun _ => CallOutcome.exn "Timed out while waiting for response"
    followUp := BackendResult.ok (some "The check timed out.") [] }

/-- Claim C6 (amended): `execute_mcp_tool` bounds nothing itself — a
provider pipeline that never completes hangs the call (result `none`);
but any failure the pipeline raises, a timeout exception raised by a
lower layer or by the provider included, is treated like any other
failure: the broker returns an error string identifying the failing tool,
that string becomes the tool entry's content, and the exchange continues
through the follow-up call to a final assistant event. -/
theorem c6_no_broker_timeout (catalog : List String) (name emsg : String)
    (env : Exchange) (hist : List Entry) (msg : String) (tc : ToolCall)
    (c fc : Option String) (a : Args) (fcalls : List ToolCall)
    (hf : env.first = BackendResult.ok c [tc])
    (ha : tc.arguments = ParsedArgs.ok a)
    (ht : env.tools 0 = CallOutcome.exn emsg)
    (hfu : env.followUp = BackendResult.ok fc fcalls) :
    (execute_mcp_tool catalog name CallOutcome.hang).result = none ∧
    (execute_mcp_tool catalog name (CallOutcome.exn emsg)).result =
      some ("Error executing tool " ++ name ++ ": " ++ emsg) ∧
    chat_with_gpt catalog env hist msg = some
      (hist ++ [Entry.user msg, Entry.assistantToolCalls c [tc],
        Entry.toolEntry tc.id ("Error executing tool " ++ tc.name ++ ": " ++ emsg),
        Entry.assistant fc],
       [{ kind := EKind.tool,
          text := some ("🔧 Calling tool: " ++ tc.name ++ " with " ++ a.repr) },
        { kind := EKind.assistant, text := fc }]) := by
  refine ⟨rfl, rfl, ?_⟩
  simp [chat_with_gpt, hf, runToolCalls, ha, ht, hfu, execute_mcp_tool]

/-- Claim C6 witness: the amended theorem at a raised timeout error. -/
theorem c6_witness :
    (c6wenv.first = BackendResult.ok none [c6wtc]) ∧
    (c6wtc.arguments = ParsedArgs.ok toolArgsEmpty) ∧
    (c6wenv.tools 0 = CallOutcome.exn "Timed out while waiting for response") ∧
    (c6wenv.followUp = BackendResult.ok (some "The check timed out.") []) ∧
    ((execute_mcp_tool [] "check_wifi_status" CallOutcome.hang).result = none ∧
     (execute_mcp_tool [] "check_wifi_status"
        (CallOutcome.exn "Timed out while waiting for response")).result =
      some ("Error executing tool " ++ "check_wifi_status" ++ ": " ++
        "Timed out while waiting for response") ∧
     chat_with_gpt [] c6wenv [] "check" = some
       ([] ++ [Entry.user "check", Entry.assistantToolCalls none [c6wtc],
         Entry.toolEntry c6wtc.id ("Error executing tool " ++ c6wtc.name ++ ": " ++
           "Timed out while waiting for response"),
         Entry.assistant (some "The check timed out.")],
        [{ kind := EKind.tool,
           text := some ("🔧 Calling tool: " ++ c6wtc.name ++ " with " ++
             toolArgsEmpty.repr) },
         { kind := EKind.assistant, text := some "The check timed out." }])) :=
  ⟨rfl, rfl, rfl, rfl,
    c6_no_broker_timeout [] "check_wifi_status"
      "Timed out while waiting for response" c6wenv [] "check" c6wtc none
      (some "The check timed out.") toolArgsEmpty [] rfl rfl rfl rfl⟩

/-- A well-formed `get_status` tool call for the C7 scenario. -/
def c7tc : ToolCall :=
  { id := "call_9", name := "get_status", arguments := ParsedArgs.ok toolArgsEmpty }

/-- An exchange whose single tool call's provider connection fails. -/
def c7envx : Exchange :=
  { first := BackendResult.ok none [c7tc]
    tools := fun _ => CallOutcome.exn "Connection closed"
    followUp := BackendResult.ok
      (some "The diagnostic tool is unavailable right now.") [] }

/-- Claim C7 counterexample: the provider connection fails during
`call_tool` (`tools 0` raises), yet the exchange completes with zero
outbound events of kind error — contradicting the claim that an outbound
error event is emitted. -/
theorem c7_counterexample :
    c7envx.tools 0 = CallOutcome.exn "Connection closed" ∧
    (chat_with_gpt [] c7envx [] "status please").isSome = true ∧
    errorCount (((chat_with_gpt [] c7envx [] "status please").getD ([], [])).2) = 0 :=
  ⟨rfl, rfl, rfl⟩

/-- Claim C7 (amended): when the provider connection fails during
`call_tool`, no outbound error event is emitted; instead the failure text
— which includes the failing tool's name — becomes the tool entry's
content, the exchange still completes, and the worker then processes the
next queued inbound message normally. -/
theorem c7_provider_failure (catalog : List String) (envs : Nat → Exchange)
    (hist : List Entry) (evs : List OutEvent) (msg : String)
    (rest : List String) (tc : ToolCall) (c fc : Option String) (a : Args)
    (fcalls : List ToolCall) (emsg : String)
    (hq : msg ≠ "QUIT")
    (hf : (envs 0).first = BackendResult.ok c [tc])
    (ha : tc.arguments = ParsedArgs.ok a)
    (ht : (envs 0).tools 0 = CallOutcome.exn emsg)
    (hfu : (envs 0).followUp = BackendResult.ok fc fcalls) :
    ∃ h e, chat_with_gpt catalog (envs 0) hist msg = some (h, e) ∧
      Entry.toolEntry tc.id ("Error executing tool " ++ tc.name ++ ": " ++ emsg) ∈ h ∧
      errorCount e = 0 ∧
      async_worker catalog envs hist evs (msg :: rest) =
        async_worker catalog (fun n => envs (n + 1)) h (evs ++ e) rest := by
  have hc : chat_with_gpt catalog (envs 0) hist msg = some
      (hist ++ [Entry.user msg, Entry.assistantToolCalls c [tc],
        Entry.toolEntry tc.id ("Error executing tool " ++ tc.name ++ ": " ++ emsg),
        Entry.assistant fc],
       [{ kind := EKind.tool,
          text := some ("🔧 Calling tool: " ++ tc.name ++ " with " ++ a.repr) },
        { kind := EKind.assistant, text := fc }]) := by
    simp [chat_with_gpt, hf, runToolCalls, ha, ht, hfu, execute_mcp_tool]
  refine ⟨_, _, hc, ?_, ?_,
    async_worker_step catalog envs hist evs msg rest _ _ hq hc⟩
  · simp
  · simp [errorCount, OutEvent.isError, List.countP_cons, List.countP_nil]

/-- Worker environments for the C7 witness run. -/
def c7wenvs : Nat → Exchange := fun _ => c7envx

/-- Claim C7 witness: the amended theorem applied to a failing provider
connection, with one further message queued behind. -/
theorem c7_witness :
    ("status please" ≠ "QUIT") ∧
    ((c7wenvs 0).first = BackendResult.ok none [c7tc]) ∧
    (c7tc.arguments = ParsedArgs.ok toolArgsEmpty) ∧
    ((c7wenvs 0).tools 0 = CallOutcome.exn "Connection closed") ∧
    ((c7wenvs 0).followUp = BackendResult.ok
      (some "The diagnostic tool is unavailable right now.") []) ∧
    (∃ h e, chat_with_gpt [] (c7wenvs 0) [] "status please" = some (h, e) ∧
      Entry.toolEntry c7tc.id ("Error executing tool " ++ c7tc.name ++ ": " ++
        "Connection closed") ∈ h ∧
      errorCount e = 0 ∧
      async_worker [] c7wenvs [] [] ("status please" :: ["next question"]) =
        async_worker [] (fun n => c7wenvs (n + 1)) h ([] ++ e) ["next question"]) :=
  ⟨by decide, rfl, rfl, rfl, rfl,
    c7_provider_failure [] c7wenvs [] [] "status please" ["next question"]
      c7tc none (some "The diagnostic tool is unavailable right now.")
      toolArgsEmpty [] "Connection closed" (by decide) rfl rfl rfl rfl⟩

/-- Claim C8: the shutdown sentinel is honored only between exchanges:
for any sentinel-free backlog, processing backlog ++ sentinel :: rest
first completes every backlog exchange in full — reaching exactly the
state that draining the backlog alone reaches, each exchange atomic with
all its tool sub-calls and follow-up call — and only then exits, leaving
`rest` unread; with an empty backlog (idle worker) the loop exits at the
very next poll. -/
theorem c8_shutdown_between_exchanges (catalog : List String)
    (envs : Nat → Exchange) (hist : List Entry) (evs : List OutEvent)
    (msgs rest : List String)
    (hq : ∀ m ∈ msgs, m ≠ "QUIT") (hnh : ∀ i, (envs i).noHang) :
    ∃ h e, async_worker catalog envs hist evs msgs = WorkerOutcome.idle h e ∧
      async_worker catalog envs hist evs (msgs ++ "QUIT" :: rest) =
        WorkerOutcome.quit h e rest := by
  obtain ⟨h, e, hrun, _⟩ := async_worker_drains catalog msgs envs hist evs hq hnh
  exact ⟨h, e, hrun,
    async_worker_quit_after catalog msgs envs hist evs rest h e hq hrun⟩

/-- Claim C8 witness: a sentinel behind one in-flight message, with a
message queued after the sentinel left unread. -/
theorem c8_witness :
    (∀ m ∈ ["hello"], m ≠ "QUIT") ∧ (∀ i, (c3wenvs i).noHang) ∧
    (∃ h e, async_worker [] c3wenvs [] [] ["hello"] = WorkerOutcome.idle h e ∧
      async_worker [] c3wenvs [] [] (["hello"] ++ "QUIT" :: ["after"]) =
        WorkerOutcome.quit h e ["after"]) :=
  ⟨by decide, c3wenvs_noHang,
    c8_shutdown_between_exchanges [] c3wenvs [] [] ["hello"] ["after"]
      (by decide) c3wenvs_noHang⟩

/-- Claim C9: any inbound message whose (stripped) text is exactly "QUIT"
— one typed in the input field included, since the send path enqueues
every nonempty stripped text by the same rule, with no special casing —
makes the worker loop terminate at its poll without performing an
exchange: the transcript gains no user entry, no outbound event is
emitted, and the messages behind it are left unread. -/
theorem c9_quit_sentinel (catalog : List String) (envs : Nat → Exchange)
    (hist : List Entry) (evs : List OutEvent) (rest : List String)
    (q : List String) (input : String) (hin : strip input ≠ "") :
    send_message_sync true q input = q ++ [strip input] ∧
    async_worker catalog envs hist evs ("QUIT" :: rest) =
      WorkerOutcome.quit hist evs rest := by
  constructor
  · simp [send_message_sync, hin]
  · simp [async_worker]

/-- Claim C9 witness: the user types "QUIT" in the input field; it is
enqueued like any text and the worker, mid-backlog, stops on it. -/
theorem c9_witness :
    (strip "QUIT" ≠ "") ∧
    (send_message_sync true ["earlier"] "QUIT" = ["earlier"] ++ [strip "QUIT"] ∧
     async_worker [] c3wenvs [Entry.user "earlier"] [] ("QUIT" :: ["later"]) =
       WorkerOutcome.quit [Entry.user "earlier"] [] ["later"]) :=
  ⟨by decide,
    c9_quit_sentinel [] c3wenvs [Entry.user "earlier"] [] ["later"]
      ["earlier"] "QUIT" (by decide)⟩

end McpClient

namespace WifiDiag

/-- Outcome of the `subprocess.run` call inside `run_command`
(`wifi_diagnostics_mcp.py` lines 33-39, `timeout=30`): the process
completed within the 30-second bound with the given return code and
captured streams, or the bound was exceeded (`subprocess.TimeoutExpired`),
or some other exception was raised with `str(e) = msg`. -/
inductive SubprocessOutcome where
  | completed (returncode : Int) (stdout : String) (stderr : String)
  | timedOut
  | exn (msg : String)
  deriving DecidableEq

/-- The dict returned by `run_command`; keys absent in a branch are
`none`. -/
structure CommandResult where
  success : Bool
  stdout : Option String
  stderr : Option String
  error : Option String
  command : String
  deriving DecidableEq

/-- Embedding of `run_command` (lines 30-49) for a command given as a list
of strings: success is `returncode == 0`; a timeout yields
`success = False` with the fixed error text; any other exception yields
`success = False` with `str(e)`.  All three branches return normally. -/
def run_command (cmd : List String) (outcome : SubprocessOutcome) :
    CommandResult :=
  match outcome with
  | .completed rc out err =>
      { success := rc == 0
        stdout := some out
        stderr := some err
        error := none
        command := String.intercalate " " cmd }
  | .timedOut =>
      { success := false
        stdout := none
        stderr := none
        error := some "Command timed out"
        command := String.intercalate " " cmd }
  | .exn msg =>
      { success := false
        stdout := none
        stderr := none
        error := some msg
        command := String.intercalate " " cmd }

/-- Claim C10: `run_command` on a command list is total — every
`subprocess.run` outcome maps to a returned dict, never a raised
exception: success is reported exactly when the process completed within
the 30-second bound with return code 0; a timeout returns success `false`
with the fixed error string, and any other exception returns success
`false` with its message. -/
theorem c10_run_command_total (cmd : List String) (rc : Int)
    (out err emsg : String) (oc : SubprocessOutcome) :
    (run_command cmd (SubprocessOutcome.completed rc out err)).success = (rc == 0) ∧
    run_command cmd SubprocessOutcome.timedOut =
      { success := false, stdout := none, stderr := none,
        error := some "Command timed out",
        command := String.intercalate " " cmd } ∧
    run_command cmd (SubprocessOutcome.exn emsg) =
      { success := false, stdout := none, stderr := none,
        error := some emsg, command := String.intercalate " " cmd } ∧
    ((run_command cmd oc).success = true ↔
      ∃ o e, oc = SubprocessOutcome.completed 0 o e) := by
  refine ⟨rfl, rfl, rfl, ?_⟩
  cases oc <;> simp [run_command, beq_iff_eq]

end WifiDiag
